import Mathlib

/-!
Shallow embedding of `scripts/check_fail_fast.py`, a custom AST linter for
fail-fast patterns, together with theorems settling the specification's
claims about it.

The embedding mirrors the Python source:
* a Python source file is represented by its parse result (Python's
  `ast.parse` is a fixed deterministic function of the text, so a file's
  text is modelled by the tree it parses to, or by its syntax error);
* type annotations are kept in the form the checker actually reads them:
  the source calls `ast.unparse(...)` on every annotation and then only does
  substring tests on the resulting text, so an annotation is modelled as
  that unparsed text (`Option String`);
* machine floats appear only in `num_defaults / effective_params > 0.5`,
  which for the integer operands involved is exactly `2 * num_defaults >
  effective_params` (halving is exact in binary floating point and the
  quotient of two small naturals is correctly rounded), so the comparison is
  embedded as that integer inequality;
* the mutable `self.violations` list of the `FailFastChecker` class is
  embedded as explicit state passing (`Checker`), and a pure structural
  collector is proved equal to the stateful run.
-/

namespace FailFast

/-- One formal parameter of a Python function: its name and, when present,
the unparsed text of its type annotation (the checker only ever inspects
`ast.unparse(arg.annotation)`, a string). -/
structure Arg where
  arg : String
  annotationText : Option String
deriving DecidableEq

/-- The comparison operators of `ast.Compare` that the checker
distinguishes: `In`, `NotIn`, and everything else. -/
inductive CmpOp where
  | inOp
  | notInOp
  | otherOp
deriving DecidableEq

mutual

/-- The expression subset of the Python AST relevant to the checker. -/
inductive Expr where
  | nameE (id : String)
  | constNone
  | constInt (n : Int)
  | constStr (s : String)
  | compare (left : Expr) (ops : List CmpOp) (comparators : List Expr)
  | call (func : Expr) (argsE : List Expr)
  | binOp (left right : Expr)
  | subscript (value index : Expr)

/-- The statement subset of the Python AST relevant to the checker. -/
inductive Stmt where
  | funcDef (f : FuncDef)
  | passStmt
  | raiseStmt (exc : Option Expr)
  | returnStmt (value : Option Expr)
  | exprStmt (value : Expr)
  | assignStmt (target value : Expr)
  | ifStmt (test : Expr) (body orelse : List Stmt)

/-- An `ast.FunctionDef` node: name, line number, the three parameter lists
(`posonlyargs`, `args`, `kwonlyargs`), the positional defaults `defaults`,
the keyword-only defaults `kw_defaults` (one entry per keyword-only
parameter, `none` when it has no default), and the body. -/
inductive FuncDef where
  | mk (name : String) (lineno : Nat)
      (posonlyargs : List Arg) (args : List Arg) (kwonlyargs : List Arg)
      (defaults : List Expr) (kw_defaults : List (Option Expr))
      (body : List Stmt)

end

def FuncDef.name : FuncDef → String
  | .mk n _ _ _ _ _ _ _ => n

def FuncDef.lineno : FuncDef → Nat
  | .mk _ l _ _ _ _ _ _ => l

def FuncDef.posonlyargs : FuncDef → List Arg
  | .mk _ _ p _ _ _ _ _ => p

def FuncDef.args : FuncDef → List Arg
  | .mk _ _ _ a _ _ _ _ => a

def FuncDef.kwonlyargs : FuncDef → List Arg
  | .mk _ _ _ _ k _ _ _ => k

def FuncDef.defaults : FuncDef → List Expr
  | .mk _ _ _ _ _ d _ _ => d

def FuncDef.kw_defaults : FuncDef → List (Option Expr)
  | .mk _ _ _ _ _ _ kd _ => kd

def FuncDef.body : FuncDef → List Stmt
  | .mk _ _ _ _ _ _ _ b => b

/-- Python's `s.startswith(p)`. -/
def strStartsWith (s p : String) : Bool := p.data.isPrefixOf s.data

/-- Python's substring containment `needle in hay`. -/
def containsSubstr (hay needle : String) : Bool :=
  (List.range (hay.data.length + 1)).any fun i => needle.data.isPrefixOf (hay.data.drop i)

/-- ASCII lowering of one character, as `str.lower` acts on the ASCII range
(the annotations the checker lowers are ASCII identifiers and brackets). -/
def lowerChar (c : Char) : Char :=
  if 'A' ≤ c ∧ c ≤ 'Z' then Char.ofNat (c.toNat + 32) else c

/-- Python's `s.lower()` on the ASCII range. -/
def strLower (s : String) : String := ⟨s.data.map lowerChar⟩

/-- Whether a comparison operator is `ast.In` or `ast.NotIn` (the
`isinstance(op, ast.NotIn | ast.In)` test of the source). -/
def isMembershipOp : CmpOp → Bool
  | .inOp => true
  | .notInOp => true
  | .otherOp => false

mutual

/-- Whether `ast.walk` over this expression meets a `Compare` node one of
whose operators is `In` or `NotIn`. -/
def exprHasValidation : Expr → Bool
  | .nameE _ => false
  | .constNone => false
  | .constInt _ => false
  | .constStr _ => false
  | .compare l ops comps =>
      ops.any isMembershipOp || exprHasValidation l || exprListHasValidation comps
  | .call f as => exprHasValidation f || exprListHasValidation as
  | .binOp l r => exprHasValidation l || exprHasValidation r
  | .subscript v i => exprHasValidation v || exprHasValidation i

def exprListHasValidation : List Expr → Bool
  | [] => false
  | e :: es => exprHasValidation e || exprListHasValidation es

def optExprHasValidation : Option Expr → Bool
  | none => false
  | some e => exprHasValidation e

def optExprListHasValidation : List (Option Expr) → Bool
  | [] => false
  | o :: os => optExprHasValidation o || optExprListHasValidation os

/-- Whether `ast.walk` over this statement meets a `Raise` node, or a
`Compare` node with an `In`/`NotIn` operator.  `ast.walk` descends into
every child, so nested function definitions are walked too. -/
def stmtHasValidation : Stmt → Bool
  | .funcDef f => funcHasValidation f
  | .passStmt => false
  | .raiseStmt _ => true
  | .returnStmt v => optExprHasValidation v
  | .exprStmt e => exprHasValidation e
  | .assignStmt t v => exprHasValidation t || exprHasValidation v
  | .ifStmt t b e => exprHasValidation t || stmtListHasValidation b || stmtListHasValidation e

def stmtListHasValidation : List Stmt → Bool
  | [] => false
  | s :: ss => stmtHasValidation s || stmtListHasValidation ss

/-- The `ast.walk(node)` scan of `_check_dict_without_validation`: does the
function definition's subtree hold a `Raise` statement or an `In`/`NotIn`
comparison?  The walk covers default-value expressions and the body
(annotations are carried as unparsed text, as the checker reads them). -/
def funcHasValidation : FuncDef → Bool
  | .mk _ _ _ _ _ ds kds body =>
      exprListHasValidation ds || optExprListHasValidation kds || stmtListHasValidation body

end

/-- `total_params = len(args.args) + len(args.posonlyargs) + len(args.kwonlyargs)`. -/
def totalParams (f : FuncDef) : Nat :=
  f.args.length + f.posonlyargs.length + f.kwonlyargs.length

/-- `num_defaults = sum(1 for d in args.kw_defaults if d is not None) + len(args.defaults)`
(the source's final assignment on line 66; line 64 is immediately
overwritten by it). -/
def numDefaults (f : FuncDef) : Nat :=
  (f.kw_defaults.filter fun d => d.isSome).length + f.defaults.length

/-- `effective_params`: `total_params`, minus one when the first regular
parameter is literally named `self`
(`if args.args and args.args[0].arg == "self"`). -/
def effectiveParams (f : FuncDef) : Nat :=
  match f.args with
  | a :: _ => if a.arg = "self" then totalParams f - 1 else totalParams f
  | [] => totalParams f

/-- The annotation test of the single-optional-parameter exemption:
`param = args.args[-1] if args.args else None`, and then, when that
parameter carries an annotation, whether `"None"` occurs in its unparsed
text. -/
def singleOptionalExempt (f : FuncDef) : Bool :=
  match f.args.getLast? with
  | some p =>
      match p.annotationText with
      | some ann => containsSubstr ann "None"
      | none => false
  | none => false

/-- The Rule 1 message
`f"{filename}:{lineno}: [!] Function '{name}' has {nd}/{ep} parameters with defaults (>50%). Consider making some required."`. -/
def rule1Msg (filename : String) (f : FuncDef) : String :=
  filename ++ ":" ++ toString f.lineno ++ ": [!] Function '" ++ f.name ++ "' has " ++
    toString (numDefaults f) ++ "/" ++ toString (effectiveParams f) ++
    " parameters with defaults (>50%). Consider making some required."

/-- `FailFastChecker._check_excessive_defaults` (Rule 1).  The float test
`num_defaults / effective_params > 0.5` is embedded as
`effective_params < 2 * num_defaults`, its exact integer form. -/
def checkExcessiveDefaults (filename : String) (f : FuncDef) : List String :=
  if totalParams f ≤ 1 then []
  else if effectiveParams f = 1 ∧ numDefaults f = 1 ∧ singleOptionalExempt f then []
  else if 0 < effectiveParams f ∧ effectiveParams f < 2 * numDefaults f then
    [rule1Msg filename f]
  else []

/-- The dict-parameter scan of `_check_dict_without_validation`: some
parameter of `node.args.args` (only the regular positional-or-keyword list
is scanned) carries an annotation whose lowered unparsed text holds the
substring `"dict"`. -/
def hasDictParam (f : FuncDef) : Bool :=
  f.args.any fun a =>
    match a.annotationText with
    | some ann => containsSubstr (strLower ann) "dict"
    | none => false

/-- The Rule 2 message
`f"{filename}:{lineno}: [!] Function '{name}' takes dict but has no validation. ..."`. -/
def rule2Msg (filename : String) (f : FuncDef) : String :=
  filename ++ ":" ++ toString f.lineno ++ ": [!] Function '" ++ f.name ++
    "' takes dict but has no validation. Add: if 'key' not in dict: raise ValueError(...)"

/-- `FailFastChecker._check_dict_without_validation` (Rule 2). -/
def checkDictWithoutValidation (filename : String) (f : FuncDef) : List String :=
  if ¬ hasDictParam f then []
  else if funcHasValidation f then []
  else [rule2Msg filename f]

/-- `FailFastChecker._check_has_validation` (Rule 3).  In the source the
rule's entire logic is commented out: after the early return for bodies of
at most three statements the method body is `pass`, so it appends nothing
for any function. -/
def checkHasValidation (_filename : String) (_f : FuncDef) : List String := []

/-- The state of a `FailFastChecker` instance: the filename given to its
constructor, and the mutable `self.violations` list. -/
structure Checker where
  filename : String
  violations : List String
deriving DecidableEq

mutual

/-- The visitor's dispatch on one statement.  Only `visit_FunctionDef` is
overridden; every other node is traversed by `generic_visit`, which in this
statement subset can reach further function definitions only through the
branches of an `if`. -/
def visitStmtC (c : Checker) : Stmt → Checker
  | .funcDef f => visitFuncDefC c f
  | .ifStmt _ b e => visitStmtListC (visitStmtListC c b) e
  | _ => c

def visitStmtListC (c : Checker) : List Stmt → Checker
  | [] => c
  | s :: ss => visitStmtListC (visitStmtC c s) ss

/-- `FailFastChecker.visit_FunctionDef`: names starting with `"_"` or
`"test"` skip the rules but still `generic_visit` the body; otherwise the
three checks run in order, appending to `self.violations`, and then
`generic_visit` descends into the body. -/
def visitFuncDefC (c : Checker) : FuncDef → Checker
  | .mk n ln po as kw ds kds body =>
      if strStartsWith n "_" then visitStmtListC c body
      else if strStartsWith n "test" then visitStmtListC c body
      else
        let f := FuncDef.mk n ln po as kw ds kds body
        let c1 : Checker :=
          { c with violations := c.violations ++ checkExcessiveDefaults c.filename f }
        let c2 : Checker :=
          { c1 with violations := c1.violations ++ checkDictWithoutValidation c1.filename f }
        let c3 : Checker :=
          { c2 with violations := c2.violations ++ checkHasValidation c2.filename f }
        visitStmtListC c3 body

end

mutual

/-- Pure structural collector: the violations one statement contributes, in
source order. -/
def stmtViolations (fn : String) : Stmt → List String
  | .funcDef f => funcViolations fn f
  | .ifStmt _ b e => stmtListViolations fn b ++ stmtListViolations fn e
  | _ => []

def stmtListViolations (fn : String) : List Stmt → List String
  | [] => []
  | s :: ss => stmtViolations fn s ++ stmtListViolations fn ss

/-- Pure structural collector for one function definition: for a non-exempt
name, Rule 1's, Rule 2's and Rule 3's own messages, then the messages of
the nested definitions in its body. -/
def funcViolations (fn : String) : FuncDef → List String
  | .mk n ln po as kw ds kds body =>
      if strStartsWith n "_" then stmtListViolations fn body
      else if strStartsWith n "test" then stmtListViolations fn body
      else
        let f := FuncDef.mk n ln po as kw ds kds body
        checkExcessiveDefaults fn f ++ checkDictWithoutValidation fn f ++
          checkHasValidation fn f ++ stmtListViolations fn body

end

/-- The outcome of `ast.parse` on a file's text: a module body, or the
syntax error it raises (formatted as `ast.parse`'s message text). -/
inductive ParseResult where
  | ok (tree : List Stmt)
  | syntaxError (err : String)

/-- A Python file on disk: its path string and what its text parses to
(`ast.parse` is a fixed deterministic function of the text, so the text is
modelled by its parse outcome). -/
structure PyFile where
  path : String
  parsed : ParseResult

/-- `check_file`: a syntax error yields the single `[X]`-tagged diagnostic;
otherwise a fresh `FailFastChecker` (empty violation list) visits the
module body and its accumulated violations are returned.  The Lean function
is total: no exception escapes. -/
def check_file (f : PyFile) : List String :=
  match f.parsed with
  | .syntaxError e => [f.path ++ ": [X] Syntax error: " ++ e]
  | .ok tree => (visitStmtListC (Checker.mk f.path []) tree).violations

/-- Split a character list at every `/`. -/
def splitOnSlash : List Char → List (List Char)
  | [] => [[]]
  | c :: cs =>
      let r := splitOnSlash cs
      if c = '/' then [] :: r
      else (c :: r.headD []) :: r.tail

/-- The last `/`-separated component of a path string, as `PurePath.name`. -/
def pathName (p : String) : String :=
  ⟨(splitOnSlash p.data).getLastD []⟩

/-- Index of the last occurrence of a character in a list, if any. -/
def lastIdxOf (c : Char) : List Char → Option Nat
  | [] => none
  | x :: xs =>
      match lastIdxOf c xs with
      | some i => some (i + 1)
      | none => if x = c then some 0 else none

/-- `PurePath.suffix`: the final component's extension, `name[i:]` for
`i = name.rfind(".")` when `0 < i < len(name) - 1`, else the empty string. -/
def pathSuffix (p : String) : String :=
  let n := (pathName p).data
  match lastIdxOf '.' n with
  | some i => if 0 < i ∧ i < n.length - 1 then ⟨n.drop i⟩ else ""
  | none => ""

/-- Sequential `violations.extend(...)` over a list, in order. -/
def concatMap (g : α → List String) : List α → List String
  | [] => []
  | x :: xs => g x ++ concatMap g xs

/-- A filesystem path argument: an existing file, an existing directory
(with the `rglob("*.py")` listing of the `.py` files under it, in listing
order), or a nonexistent path. -/
inductive FsPath where
  | file (f : PyFile)
  | dir (path : String) (pyFiles : List PyFile)
  | missing (path : String)

def FsPath.pathStr : FsPath → String
  | .file f => f.path
  | .dir p _ => p
  | .missing p => p

/-- `path.exists()`. -/
def pathExists : FsPath → Bool
  | .missing _ => false
  | _ => true

/-- The directory-mode skip: `"test" in pyfile.name or "conftest" in pyfile.name`. -/
def isTestFileName (f : PyFile) : Bool :=
  containsSubstr (pathName f.path) "test" || containsSubstr (pathName f.path) "conftest"

/-- `check_path`: a file is checked when its suffix is `.py`; a directory's
recursively discovered `.py` files are checked in listing order, skipping
those whose name holds `"test"` or `"conftest"`; a nonexistent path is
neither a file nor a directory and contributes nothing. -/
def check_path (p : FsPath) : List String :=
  match p with
  | .file f => if pathSuffix f.path = ".py" then check_file f else []
  | .dir _ files => concatMap check_file (files.filter fun f => ¬ isTestFileName f)
  | .missing _ => []

/-- The two `print`ed usage lines of `main` when no path argument is given. -/
def usageLines : List String :=
  ["Usage: python check_fail_fast.py <path> [path2] ...",
   "       python check_fail_fast.py src/"]

/-- The final report of `main` once every path argument was processed:
header, one indented line per violation and a count line with exit code 1
when any violation was collected, else the single `[OK]` line with exit
code 0. -/
def report (all : List String) : Nat × List String :=
  match all with
  | [] => (0, ["[OK] No fail-fast violations found"])
  | _ =>
      (1, ["Fail-fast pattern violations found:\n"] ++ all.map (fun v => "  " ++ v) ++
        ["\nTotal: " ++ toString all.length ++ " violation(s)"])

/-- The `for arg in sys.argv[1:]` loop of `main`: a nonexistent path is
fatal at once (only its `[X] Path not found` line is printed, exit code 1);
otherwise `check_path`'s violations are appended and the loop continues. -/
def processArgs : List FsPath → List String → Nat × List String
  | [], acc => report acc
  | p :: ps, acc =>
      if pathExists p then processArgs ps (acc ++ check_path p)
      else (1, ["[X] Path not found: " ++ p.pathStr])

/-- `main`: exit code and printed lines, over the resolved path arguments
(`sys.argv[1:]`).  With no path argument the usage lines print and the exit
code is 1. -/
def main (argv : List FsPath) : Nat × List String :=
  match argv with
  | [] => (1, usageLines)
  | _ => processArgs argv []

/-- The spec's scenario `def f(a, b=1, c=2): pass` at line 1. -/
def exC1 : FuncDef :=
  .mk "f" 1 [] [⟨"a", none⟩, ⟨"b", none⟩, ⟨"c", none⟩] []
    [.constInt 1, .constInt 2] [] [.passStmt]

/-- `def f(*, cfg: dict): pass`: a keyword-only parameter annotated `dict`,
with no validation in the body. -/
def exC2 : FuncDef :=
  .mk "f" 1 [] [] [⟨"cfg", some "dict"⟩] [] [none] [.passStmt]

/-- The spec's scenario `def f(cfg: dict): return cfg["k"]`. -/
def exC2b : FuncDef :=
  .mk "f" 1 [] [⟨"cfg", some "dict"⟩] [] [] []
    [.returnStmt (some (.subscript (.nameE "cfg") (.constStr "k")))]

/-- The spec's scenario
`def f(cfg: dict): if "k" not in cfg: raise ValueError(...); return cfg["k"]`. -/
def exC2c : FuncDef :=
  .mk "f" 1 [] [⟨"cfg", some "dict"⟩] [] [] []
    [.ifStmt (.compare (.constStr "k") [.notInOp] [.nameE "cfg"])
        [.raiseStmt (some (.call (.nameE "ValueError") [.constStr "missing"]))] [],
     .returnStmt (some (.subscript (.nameE "cfg") (.constStr "k")))]

/-- `def m(self, x=5): pass`: one effective parameter after excluding the
receiver, carrying a default and no annotation. -/
def exC3 : FuncDef :=
  .mk "m" 1 [] [⟨"self", none⟩, ⟨"x", none⟩] [] [.constInt 5] [] [.passStmt]

/-- `def g(x=None): pass`: a single parameter in total. -/
def exC3w : FuncDef :=
  .mk "g" 1 [] [⟨"x", none⟩] [] [.constNone] [] [.passStmt]

/-- `def m(self, x: int | None = 5): pass`: the annotation text holds
`None`, the default value is `5`, not `None`. -/
def exC4 : FuncDef :=
  .mk "m" 1 [] [⟨"self", none⟩, ⟨"x", some "int | None"⟩] [] [.constInt 5] [] [.passStmt]

/-- `def m(self, x: int = 5): pass`: as `exC4` but with no `None` in the
annotation text. -/
def exC4b : FuncDef :=
  .mk "m" 1 [] [⟨"self", none⟩, ⟨"x", some "int"⟩] [] [.constInt 5] [] [.passStmt]

/-- The source docstring's own example `def run(self, ctx: X | None = None)`. -/
def exC4c : FuncDef :=
  .mk "run" 1 [] [⟨"self", none⟩, ⟨"ctx", some "X | None"⟩] [] [.constNone] [] [.passStmt]

/-- `def _helper(a, b=1, c=2)` whose body nests the violating `exC1`. -/
def exC7 : FuncDef :=
  .mk "_helper" 1 [] [⟨"a", none⟩, ⟨"b", none⟩] [] [.constInt 1, .constInt 2] []
    [.funcDef exC1]

/-- A well-formed file named `attestation.py` (its name holds the substring
`test`) whose single function is the spec's Rule 1 scenario. -/
def attFile : PyFile := ⟨"src/attestation.py", .ok [.funcDef exC1]⟩

/-- A file whose text fails to parse. -/
def badFile : PyFile := ⟨"src/bad.py", .syntaxError "invalid syntax (bad.py, line 3)"⟩

mutual

/-- A stateful visit of one statement appends exactly the statement's pure,
structurally ordered violations; the filename is never altered. -/
theorem visitStmtC_eq (c : Checker) (s : Stmt) :
    visitStmtC c s = ⟨c.filename, c.violations ++ stmtViolations c.filename s⟩ := by
  cases s with
  | funcDef f =>
      rw [visitStmtC, stmtViolations, visitFuncDefC_eq]
  | ifStmt t b e =>
      rw [visitStmtC, stmtViolations, visitStmtListC_eq, visitStmtListC_eq]
      simp [List.append_assoc]
  | passStmt =>
      cases c
      simp [visitStmtC, stmtViolations]
  | raiseStmt exc =>
      cases c
      simp [visitStmtC, stmtViolations]
  | returnStmt v =>
      cases c
      simp [visitStmtC, stmtViolations]
  | exprStmt v =>
      cases c
      simp [visitStmtC, stmtViolations]
  | assignStmt t v =>
      cases c
      simp [visitStmtC, stmtViolations]

/-- A stateful visit of a statement list appends exactly its pure,
structurally ordered violations. -/
theorem visitStmtListC_eq (c : Checker) (l : List Stmt) :
    visitStmtListC c l = ⟨c.filename, c.violations ++ stmtListViolations c.filename l⟩ := by
  cases l with
  | nil =>
      cases c
      simp [visitStmtListC, stmtListViolations]
  | cons s ss =>
      rw [visitStmtListC, stmtListViolations, visitStmtC_eq, visitStmtListC_eq]
      simp [List.append_assoc]

/-- A stateful visit of one function definition appends exactly its pure,
structurally ordered violations. -/
theorem visitFuncDefC_eq (c : Checker) (f : FuncDef) :
    visitFuncDefC c f = ⟨c.filename, c.violations ++ funcViolations c.filename f⟩ := by
  cases f with
  | mk n ln po as kw ds kds body =>
      rw [visitFuncDefC, funcViolations]
      by_cases h1 : strStartsWith n "_"
      · rw [if_pos h1, if_pos h1, visitStmtListC_eq]
      · rw [if_neg h1, if_neg h1]
        by_cases h2 : strStartsWith n "test"
        · rw [if_pos h2, if_pos h2, visitStmtListC_eq]
        · rw [if_neg h2, if_neg h2]
          dsimp only
          rw [visitStmtListC_eq]
          simp [List.append_assoc]

end

/-- A needle that occurs as an infix is found by `containsSubstr`. -/
theorem containsSubstr_of_infix (hay needle : String)
    (hin : needle.data <:+: hay.data) : containsSubstr hay needle = true := by
  obtain ⟨s, t, hst⟩ := hin
  have hlen : s.length ≤ hay.data.length := by
    rw [← hst]
    simp [List.length_append]
  rw [containsSubstr, List.any_eq_true]
  refine ⟨s.length, List.mem_range.mpr (by omega), ?_⟩
  rw [← hst, List.append_assoc, List.drop_left, List.isPrefixOf_iff_prefix]
  exact List.prefix_append _ _

/-- Splitting the Rule 1 message template around its `[!]` tag. -/
theorem rule1Msg_contains_tag (fn : String) (f : FuncDef) :
    containsSubstr (rule1Msg fn f) "[!]" = true := by
  apply containsSubstr_of_infix
  have hsplit : (": [!] Function '" : String) = ": " ++ "[!]" ++ " Function '" := by decide
  rw [rule1Msg, hsplit]
  simp only [String.data_append]
  refine ⟨fn.data ++ ":".data ++ (toString f.lineno).data ++ ": ".data,
    " Function '".data ++ f.name.data ++ "' has ".data ++ (toString (numDefaults f)).data ++
      "/".data ++ (toString (effectiveParams f)).data ++
      " parameters with defaults (>50%). Consider making some required.".data, ?_⟩
  simp [List.append_assoc]

/-- Splitting the Rule 2 message template around its `[!]` tag. -/
theorem rule2Msg_contains_tag (fn : String) (f : FuncDef) :
    containsSubstr (rule2Msg fn f) "[!]" = true := by
  apply containsSubstr_of_infix
  have hsplit : (": [!] Function '" : String) = ": " ++ "[!]" ++ " Function '" := by decide
  rw [rule2Msg, hsplit]
  simp only [String.data_append]
  refine ⟨fn.data ++ ":".data ++ (toString f.lineno).data ++ ": ".data,
    " Function '".data ++ f.name.data ++
      "' takes dict but has no validation. Add: if 'key' not in dict: raise ValueError(...)".data,
    ?_⟩
  simp [List.append_assoc]

/-- Any message Rule 1 emits is the Rule 1 message. -/
theorem mem_checkExcessiveDefaults {fn m : String} {f : FuncDef}
    (h : m ∈ checkExcessiveDefaults fn f) : m = rule1Msg fn f := by
  rw [checkExcessiveDefaults] at h
  split at h
  · simp at h
  · split at h
    · simp at h
    · split at h
      · simpa using h
      · simp at h

/-- Any message Rule 2 emits is the Rule 2 message. -/
theorem mem_checkDictWithoutValidation {fn m : String} {f : FuncDef}
    (h : m ∈ checkDictWithoutValidation fn f) : m = rule2Msg fn f := by
  rw [checkDictWithoutValidation] at h
  split at h
  · simp at h
  · split at h
    · simp at h
    · simpa using h

/-- `effective_params` never exceeds `total_params`. -/
theorem effectiveParams_le_totalParams (f : FuncDef) :
    effectiveParams f ≤ totalParams f := by
  rw [effectiveParams]
  cases f.args with
  | nil => exact Nat.le_refl _
  | cons a t =>
      dsimp only
      split
      · omega
      · exact Nat.le_refl _

/-- `concatMap` distributes over list append. -/
theorem concatMap_append (g : α → List String) (l₁ l₂ : List α) :
    concatMap g (l₁ ++ l₂) = concatMap g l₁ ++ concatMap g l₂ := by
  induction l₁ with
  | nil => simp [concatMap]
  | cons x xs ih => simp [concatMap, ih, List.append_assoc]

/-- The pure collector distributes over list append: violations come out
top to bottom. -/
theorem stmtListViolations_append (fn : String) (l₁ l₂ : List Stmt) :
    stmtListViolations fn (l₁ ++ l₂) =
      stmtListViolations fn l₁ ++ stmtListViolations fn l₂ := by
  induction l₁ with
  | nil => simp [stmtListViolations]
  | cons s ss ih => simp [stmtListViolations, ih, List.append_assoc]

/-- When every remaining path exists, the argument loop ends in the final
report over the accumulated and newly collected violations. -/
theorem processArgs_all_exist (l : List FsPath) (acc : List String)
    (h : ∀ p ∈ l, pathExists p = true) :
    processArgs l acc = report (acc ++ concatMap check_path l) := by
  induction l generalizing acc with
  | nil => simp [processArgs, concatMap]
  | cons p ps ih =>
      have hp : pathExists p = true := h p (List.mem_cons_self p ps)
      rw [processArgs, if_pos hp, ih _ (fun q hq => h q (List.mem_cons_of_mem p hq))]
      simp [concatMap, List.append_assoc]

/-- The first nonexistent path aborts the loop at once with only its
`[X] Path not found` line, whatever follows it. -/
theorem processArgs_first_missing (pre : List FsPath) (m : FsPath)
    (rest : List FsPath) (acc : List String)
    (hpre : ∀ p ∈ pre, pathExists p = true) (hm : pathExists m = false) :
    processArgs (pre ++ m :: rest) acc =
      (1, ["[X] Path not found: " ++ m.pathStr]) := by
  induction pre generalizing acc with
  | nil => simp [processArgs, hm]
  | cons p ps ih =>
      have hp : pathExists p = true := hpre p (List.mem_cons_self p ps)
      rw [List.cons_append, processArgs, if_pos hp]
      exact ih _ (fun q hq => hpre q (List.mem_cons_of_mem p hq))

/-- Exit code 0 of the loop means every path existed and nothing was
collected. -/
theorem processArgs_fst_zero_iff (l : List FsPath) (acc : List String) :
    (processArgs l acc).1 = 0 ↔
      ((∀ p ∈ l, pathExists p = true) ∧ acc ++ concatMap check_path l = []) := by
  induction l generalizing acc with
  | nil =>
      rw [processArgs]
      cases acc with
      | nil => simp [report, concatMap]
      | cons a as => simp [report, concatMap]
  | cons p ps ih =>
      rw [processArgs]
      by_cases hp : pathExists p = true
      · rw [if_pos hp, ih]
        constructor
        · rintro ⟨h1, h2⟩
          refine ⟨?_, ?_⟩
          · intro q hq
            rcases List.mem_cons.mp hq with rfl | hq'
            · exact hp
            · exact h1 q hq'
          · simpa [concatMap, List.append_assoc] using h2
        · rintro ⟨h1, h2⟩
          refine ⟨fun q hq => h1 q (List.mem_cons_of_mem p hq), ?_⟩
          simpa [concatMap, List.append_assoc] using h2
      · rw [if_neg hp]
        constructor
        · intro hfalse
          simp at hfalse
        · rintro ⟨h1, _⟩
          exact absurd (h1 p (List.mem_cons_self p ps)) hp

/-- For a non-exempt name, the function's own violations are Rule 1's, then
Rule 2's, then Rule 3's messages, then the nested definitions'. -/
theorem funcViolations_nonexempt (fn : String) (fd : FuncDef)
    (h1 : strStartsWith fd.name "_" = false)
    (h2 : strStartsWith fd.name "test" = false) :
    funcViolations fn fd =
      checkExcessiveDefaults fn fd ++ checkDictWithoutValidation fn fd ++
        checkHasValidation fn fd ++ stmtListViolations fn fd.body := by
  cases fd with
  | mk n ln po as kw ds kds body =>
      simp only [FuncDef.name] at h1 h2
      rw [funcViolations, if_neg (by simp [h1]), if_neg (by simp [h2])]
      simp [FuncDef.body, List.append_assoc]

/-- For an exempt name, the function contributes only its nested
definitions' violations. -/
theorem funcViolations_exempt (fn : String) (fd : FuncDef)
    (h : strStartsWith fd.name "_" = true ∨ strStartsWith fd.name "test" = true) :
    funcViolations fn fd = stmtListViolations fn fd.body := by
  cases fd with
  | mk n ln po as kw ds kds body =>
      simp only [FuncDef.name] at h
      rcases h with h | h
      · rw [funcViolations, if_pos h]
        rfl
      · rw [funcViolations]
        by_cases h1 : strStartsWith n "_"
        · rw [if_pos h1]
          rfl
        · rw [if_neg h1, if_pos h]
          rfl

/-- Claim C1: a function whose name does not start with `_` or `test`, with
more than one effective parameter and with defaults on strictly more than
half of them (the code's measure `num_defaults / effective_params`),
receives exactly one Rule 1 message, placed first among the function's own
violations; in particular the spec's scenario `def f(a, b=1, c=2): pass`
yields exactly that one violation. -/
theorem rule1_fires_once_on_excessive_defaults (fn : String) (fd : FuncDef)
    (h1 : strStartsWith fd.name "_" = false)
    (h2 : strStartsWith fd.name "test" = false)
    (heff : 1 < effectiveParams fd)
    (hfrac : effectiveParams fd < 2 * numDefaults fd) :
    (checkExcessiveDefaults fn fd).length = 1 ∧
    funcViolations fn fd =
      checkExcessiveDefaults fn fd ++ checkDictWithoutValidation fn fd ++
        checkHasValidation fn fd ++ stmtListViolations fn fd.body ∧
    funcViolations "ex.py" exC1 =
      ["ex.py:1: [!] Function 'f' has 2/3 parameters with defaults (>50%). Consider making some required."] := by
  refine ⟨?_, funcViolations_nonexempt fn fd h1 h2, by decide⟩
  have htot : ¬ (totalParams fd ≤ 1) := by
    have := effectiveParams_le_totalParams fd
    omega
  rw [checkExcessiveDefaults, if_neg htot,
    if_neg (fun hc => by omega : ¬ (effectiveParams fd = 1 ∧ numDefaults fd = 1 ∧
      singleOptionalExempt fd = true)),
    if_pos ⟨by omega, hfrac⟩]
  rfl

/-- Witness for C1 at the spec's scenario `def f(a, b=1, c=2): pass`. -/
theorem rule1_fires_once_on_excessive_defaults_witness :
    (checkExcessiveDefaults "ex.py" exC1).length = 1 ∧
    funcViolations "ex.py" exC1 =
      checkExcessiveDefaults "ex.py" exC1 ++ checkDictWithoutValidation "ex.py" exC1 ++
        checkHasValidation "ex.py" exC1 ++ stmtListViolations "ex.py" exC1.body ∧
    funcViolations "ex.py" exC1 =
      ["ex.py:1: [!] Function 'f' has 2/3 parameters with defaults (>50%). Consider making some required."] :=
  rule1_fires_once_on_excessive_defaults "ex.py" exC1
    (by decide) (by decide) (by decide) (by decide)

/-- Claim C3 counterexample: `def m(self, x=5): pass` has exactly one
effective parameter once the receiver is excluded, yet Rule 1 fires (the
code's guard is `total_params <= 1`, not the effective count, and the
single-optional exemption needs a `None`-mentioning annotation). -/
theorem rule1_low_arity_counterexample :
    effectiveParams exC3 = 1 ∧
    checkExcessiveDefaults "ex.py" exC3 =
      ["ex.py:1: [!] Function 'm' has 1/1 parameters with defaults (>50%). Consider making some required."] ∧
    funcViolations "ex.py" exC3 =
      ["ex.py:1: [!] Function 'm' has 1/1 parameters with defaults (>50%). Consider making some required."] :=
  ⟨by decide, by decide, by decide⟩

/-- Claim C3 as amended: a function with at most one parameter in total
(positional-only, regular and keyword-only together) never receives a
Rule 1 violation, regardless of defaults and annotations. -/
theorem rule1_single_total_param_never_fires (fn : String) (fd : FuncDef)
    (h : totalParams fd ≤ 1) :
    checkExcessiveDefaults fn fd = [] := by
  rw [checkExcessiveDefaults, if_pos h]

/-- Witness for amended C3 at `def g(x=None): pass`. -/
theorem rule1_single_total_param_never_fires_witness :
    checkExcessiveDefaults "ex.py" exC3w = [] :=
  rule1_single_total_param_never_fires "ex.py" exC3w (by decide)

/-- Claim C4 counterexample: `def m(self, x: int | None = 5): pass` has a
non-`None` default on its single effective parameter, so the claim denies
it the exemption, yet the code exempts it (no violation); the same function
with annotation `int` is flagged, so the suppression is the exemption. -/
theorem rule1_exemption_ignores_default_value :
    exC4.args = [⟨"self", none⟩, ⟨"x", some "int | None"⟩] ∧
    exC4.defaults = [Expr.constInt 5] ∧
    effectiveParams exC4 = 1 ∧ numDefaults exC4 = 1 ∧
    checkExcessiveDefaults "ex.py" exC4 = [] ∧
    (checkExcessiveDefaults "ex.py" exC4b).length = 1 :=
  ⟨rfl, rfl, by decide, by decide, by decide, by decide⟩

/-- Claim C4 as amended: for a function past the `total_params <= 1` guard
with a single effective parameter and a single counted default, the
exemption applies exactly when the last regular parameter carries an
annotation whose unparsed text holds `"None"`; the default's value is never
examined. -/
theorem rule1_exemption_annotation_only_iff (fn : String) (fd : FuncDef)
    (ht : 2 ≤ totalParams fd) (he : effectiveParams fd = 1)
    (hn : numDefaults fd = 1) :
    (checkExcessiveDefaults fn fd = [] ↔ singleOptionalExempt fd = true) := by
  rw [checkExcessiveDefaults, if_neg (by omega)]
  by_cases hex : singleOptionalExempt fd = true
  · rw [if_pos ⟨he, hn, hex⟩]
    simp [hex]
  · rw [if_neg (fun h => hex h.2.2), if_pos ⟨by omega, by omega⟩]
    simp [hex]

/-- Witness for amended C4 at the source docstring's own example
`def run(self, ctx: X | None = None)`. -/
theorem rule1_exemption_annotation_only_iff_witness :
    checkExcessiveDefaults "ex.py" exC4c = [] ↔ singleOptionalExempt exC4c = true :=
  rule1_exemption_annotation_only_iff "ex.py" exC4c (by decide) (by decide) (by decide)

/-- Claim C2 counterexample: `def f(*, cfg: dict): pass` takes a parameter
annotated `dict` (keyword-only), has no raise and no membership test, yet
Rule 2 stays silent: the scan covers only the regular
positional-or-keyword list `node.args.args`. -/
theorem rule2_param_scan_counterexample :
    exC2.kwonlyargs = [⟨"cfg", some "dict"⟩] ∧
    funcHasValidation exC2 = false ∧
    strStartsWith exC2.name "_" = false ∧
    strStartsWith exC2.name "test" = false ∧
    checkDictWithoutValidation "ex.py" exC2 = [] ∧
    funcViolations "ex.py" exC2 = [] :=
  ⟨rfl, by decide, by decide, by decide, by decide, by decide⟩

/-- Claim C2 as amended: for a function with some regular
positional-or-keyword parameter whose annotation text names `dict`, Rule 2
appends exactly one violation exactly when the function's subtree (body,
nested definitions and default expressions, as `ast.walk` covers them)
holds no raise statement and no `in`/`not in` comparison; the spec's two
scenarios evaluate accordingly. -/
theorem rule2_unvalidated_dict_iff (fn : String) (fd : FuncDef)
    (hd : hasDictParam fd = true) :
    ((checkDictWithoutValidation fn fd).length = 1 ↔ funcHasValidation fd = false) ∧
    (funcHasValidation fd = true → checkDictWithoutValidation fn fd = []) ∧
    (funcHasValidation fd = false →
      checkDictWithoutValidation fn fd = [rule2Msg fn fd]) ∧
    checkDictWithoutValidation "ex.py" exC2b = [rule2Msg "ex.py" exC2b] ∧
    checkDictWithoutValidation "ex.py" exC2c = [] := by
  refine ⟨?_, ?_, ?_, by decide, by decide⟩ <;>
    rw [checkDictWithoutValidation, if_neg (by simp [hd])]
  · by_cases hv : funcHasValidation fd = true
    · rw [if_pos hv]
      simp [hv]
    · rw [if_neg hv]
      simp only [Bool.not_eq_true] at hv
      simp [hv]
  · intro hv
    rw [if_pos hv]
  · intro hv
    rw [if_neg (by simp [hv])]

/-- Witness for amended C2 at the spec's scenario
`def f(cfg: dict): return cfg["k"]`. -/
theorem rule2_unvalidated_dict_iff_witness :
    ((checkDictWithoutValidation "ex.py" exC2b).length = 1 ↔
      funcHasValidation exC2b = false) ∧
    (funcHasValidation exC2b = false →
      checkDictWithoutValidation "ex.py" exC2b = [rule2Msg "ex.py" exC2b]) := by
  have h := rule2_unvalidated_dict_iff "ex.py" exC2b (by decide)
  exact ⟨h.1, h.2.2.1⟩

/-- Claim C5: a file whose text fails to parse yields exactly the one
diagnostic `path: [X] Syntax error: ...`, carrying the `[X]` tag while
every rule message carries `[!]`; `check_file` is a total function (no
exception escapes), and a directory listing splits into independent
per-file results, so the batch continues past a bad file. -/
theorem parse_error_single_diagnostic (f : PyFile) (e : String)
    (hp : f.parsed = .syntaxError e) :
    check_file f = [f.path ++ ": [X] Syntax error: " ++ e] ∧
    containsSubstr (f.path ++ ": [X] Syntax error: " ++ e) "[X]" = true ∧
    (∀ (fn : String) (fd : FuncDef) (m : String),
      m ∈ checkExcessiveDefaults fn fd ++ checkDictWithoutValidation fn fd →
        containsSubstr m "[!]" = true) ∧
    (∀ (dp : String) (l₁ l₂ : List PyFile),
      check_path (.dir dp (l₁ ++ l₂)) =
        check_path (.dir dp l₁) ++ check_path (.dir dp l₂)) := by
  refine ⟨by simp [check_file, hp], ?_, ?_, ?_⟩
  · apply containsSubstr_of_infix
    have hsplit : (": [X] Syntax error: " : String) =
        ": " ++ "[X]" ++ " Syntax error: " := by decide
    rw [hsplit]
    simp only [String.data_append]
    refine ⟨f.path.data ++ ": ".data, " Syntax error: ".data ++ e.data, ?_⟩
    simp [List.append_assoc]
  · intro fn fd m hm
    rcases List.mem_append.mp hm with hm | hm
    · rw [mem_checkExcessiveDefaults hm]
      exact rule1Msg_contains_tag fn fd
    · rw [mem_checkDictWithoutValidation hm]
      exact rule2Msg_contains_tag fn fd
  · intro dp l₁ l₂
    simp [check_path, List.filter_append, concatMap_append]

/-- Witness for C5 at a concrete unparsable file. -/
theorem parse_error_single_diagnostic_witness :
    check_file badFile =
      ["src/bad.py: [X] Syntax error: invalid syntax (bad.py, line 3)"] ∧
    containsSubstr "src/bad.py: [X] Syntax error: invalid syntax (bad.py, line 3)"
      "[X]" = true := by
  have h := parse_error_single_diagnostic badFile "invalid syntax (bad.py, line 3)" rfl
  have e1 : badFile.path ++ ": [X] Syntax error: " ++ "invalid syntax (bad.py, line 3)" =
      "src/bad.py: [X] Syntax error: invalid syntax (bad.py, line 3)" := by decide
  exact ⟨by rw [← e1]; exact h.1, by rw [← e1]; exact h.2.1⟩

/-- Claim C6: one stateful pass over the tree equals the pure structural
collection (so every function definition, nested ones included, is visited
once and the output is in source order); for a non-exempt function the
rules are evaluated independently, Rule 1's then Rule 2's then Rule 3's
messages preceding the nested definitions' (outer before inner); and
statement sequences contribute top to bottom. -/
theorem single_pass_structural_order :
    (∀ (f : PyFile) (tree : List Stmt), f.parsed = .ok tree →
      check_file f = stmtListViolations f.path tree) ∧
    (∀ (fn : String) (fd : FuncDef),
      strStartsWith fd.name "_" = false → strStartsWith fd.name "test" = false →
      funcViolations fn fd =
        checkExcessiveDefaults fn fd ++ checkDictWithoutValidation fn fd ++
          checkHasValidation fn fd ++ stmtListViolations fn fd.body) ∧
    (∀ (fn : String) (l₁ l₂ : List Stmt),
      stmtListViolations fn (l₁ ++ l₂) =
        stmtListViolations fn l₁ ++ stmtListViolations fn l₂) := by
  refine ⟨?_, funcViolations_nonexempt, stmtListViolations_append⟩
  intro f tree hp
  simp [check_file, hp, visitStmtListC_eq]

/-- Witness for C6 at a concrete well-formed file and function. -/
theorem single_pass_structural_order_witness :
    check_file attFile = stmtListViolations "src/attestation.py" [.funcDef exC1] ∧
    funcViolations "ex.py" exC1 =
      checkExcessiveDefaults "ex.py" exC1 ++ checkDictWithoutValidation "ex.py" exC1 ++
        checkHasValidation "ex.py" exC1 ++ stmtListViolations "ex.py" exC1.body :=
  ⟨single_pass_structural_order.1 attFile [.funcDef exC1] rfl,
   single_pass_structural_order.2.1 "ex.py" exC1 (by decide) (by decide)⟩

/-- Claim C7: a function whose name starts with `_` or with `test`
receives no violation from any rule — its contribution is exactly its
nested definitions' violations — and those nested definitions are still
visited: the exempt `def _helper(a, b=1, c=2)` wrapping the violating
`def f(a, b=1, c=2)` yields precisely the inner function's message. -/
theorem exempt_names_skip_rules (fn : String) (fd : FuncDef)
    (h : strStartsWith fd.name "_" = true ∨ strStartsWith fd.name "test" = true) :
    funcViolations fn fd = stmtListViolations fn fd.body ∧
    funcViolations "ex.py" exC7 =
      ["ex.py:1: [!] Function 'f' has 2/3 parameters with defaults (>50%). Consider making some required."] :=
  ⟨funcViolations_exempt fn fd h, by decide⟩

/-- Witness for C7 at the exempt `_helper` wrapper. -/
theorem exempt_names_skip_rules_witness :
    funcViolations "ex.py" exC7 = stmtListViolations "ex.py" exC7.body ∧
    funcViolations "ex.py" exC7 =
      ["ex.py:1: [!] Function 'f' has 2/3 parameters with defaults (>50%). Consider making some required."] :=
  exempt_names_skip_rules "ex.py" exC7 (Or.inl (by decide))

/-- Claim C8: with at least one path argument, `main` exits 0 exactly when
every path exists and zero violations were collected, printing the single
`[OK]` line; with violations it exits 1 printing header, indented
violations and the count line; and the first nonexistent path is fatal at
once, its `[X] Path not found` line the only output, whatever paths
follow. -/
theorem main_exit_code_semantics (argv : List FsPath) (hne : argv ≠ []) :
    ((main argv).1 = 0 ↔
      ((∀ p ∈ argv, pathExists p = true) ∧ concatMap check_path argv = [])) ∧
    ((main argv).1 = 0 → (main argv).2 = ["[OK] No fail-fast violations found"]) ∧
    ((∀ p ∈ argv, pathExists p = true) → concatMap check_path argv ≠ [] →
      main argv = (1,
        ["Fail-fast pattern violations found:\n"] ++
          (concatMap check_path argv).map (fun v => "  " ++ v) ++
          ["\nTotal: " ++ toString (concatMap check_path argv).length ++
            " violation(s)"])) ∧
    (∀ (pre : List FsPath) (m : FsPath) (rest : List FsPath),
      argv = pre ++ m :: rest → (∀ p ∈ pre, pathExists p = true) →
      pathExists m = false →
      main argv = (1, ["[X] Path not found: " ++ m.pathStr])) := by
  have hm : main argv = processArgs argv [] := by
    cases argv with
    | nil => exact absurd rfl hne
    | cons a as => rfl
  refine ⟨?_, ?_, ?_, ?_⟩
  · rw [hm]
    simpa using processArgs_fst_zero_iff argv []
  · intro h0
    rw [hm] at h0 ⊢
    obtain ⟨hex, hemp⟩ := (processArgs_fst_zero_iff argv []).mp h0
    rw [processArgs_all_exist argv [] hex]
    simp only [List.nil_append] at hemp ⊢
    rw [hemp]
    rfl
  · intro hex hns
    rw [hm, processArgs_all_exist argv [] hex]
    simp only [List.nil_append]
    cases hcp : concatMap check_path argv with
    | nil => exact absurd hcp hns
    | cons a as => rfl
  · rintro pre m rest rfl hpre hm0
    rw [hm]
    exact processArgs_first_missing pre m rest [] hpre hm0

/-- Witness for C8 at a one-file argument list carrying one violation. -/
theorem main_exit_code_semantics_witness :
    main [.file attFile] =
      (1, ["Fail-fast pattern violations found:\n",
           "  src/attestation.py:1: [!] Function 'f' has 2/3 parameters with defaults (>50%). Consider making some required.",
           "\nTotal: 1 violation(s)"]) := by
  have h := (main_exit_code_semantics [.file attFile]
      (List.cons_ne_nil _ _)).2.2.1
    (by
      intro p hp
      rw [List.mem_singleton.mp hp]
      rfl)
    (by decide)
  rw [h]
  decide

/-- Claim C9: the analysis is a pure function of the parsed input — two
runs of `check_file` on the unchanged file agree — and a run from any
prior checker state with the same filename appends exactly `check_file`'s
output after the prior violations, touching nothing else (order-stable,
no mutation of input or configuration). -/
theorem linter_deterministic (f : PyFile) :
    check_file f = check_file f ∧
    (∀ (tree : List Stmt) (c : Checker), f.parsed = .ok tree →
      c.filename = f.path →
      (visitStmtListC c tree).violations = c.violations ++ check_file f ∧
      (visitStmtListC c tree).filename = c.filename) := by
  refine ⟨rfl, ?_⟩
  intro tree c hp hc
  have hcf : check_file f = stmtListViolations f.path tree := by
    simp [check_file, hp, visitStmtListC_eq]
  rw [visitStmtListC_eq]
  exact ⟨by rw [hcf, hc], rfl⟩

/-- Witness for C9: a second run over `attestation.py`'s tree, started
from a checker already holding a prior message, appends the same single
violation after it. -/
theorem linter_deterministic_witness :
    check_file attFile = check_file attFile ∧
    (visitStmtListC ⟨"src/attestation.py", ["prior"]⟩ [.funcDef exC1]).violations =
      ["prior"] ++ check_file attFile ∧
    (visitStmtListC ⟨"src/attestation.py", ["prior"]⟩ [.funcDef exC1]).filename =
      "src/attestation.py" := by
  have h := linter_deterministic attFile
  have h2 := h.2 [.funcDef exC1] ⟨"src/attestation.py", ["prior"]⟩ rfl rfl
  exact ⟨h.1, h2.1, h2.2⟩

/-- Claim C10: the test-file exclusion is a substring match on the file
name applied only in directory mode — `attestation.py` holds `test`, so a
directory scan skips it while passing its path directly analyzes it — and
file mode's only requirement is the `.py` suffix, a non-`.py` file yielding
no violations. -/
theorem test_name_exclusion_dir_mode_only :
    (∀ (dp : String) (files : List PyFile),
      check_path (.dir dp files) =
        concatMap check_file (files.filter fun f => ¬ isTestFileName f)) ∧
    isTestFileName attFile = true ∧
    check_path (.dir "src" [attFile]) = [] ∧
    check_path (.file attFile) =
      ["src/attestation.py:1: [!] Function 'f' has 2/3 parameters with defaults (>50%). Consider making some required."] ∧
    (∀ f : PyFile, pathSuffix f.path = ".py" → check_path (.file f) = check_file f) ∧
    (∀ f : PyFile, ¬ pathSuffix f.path = ".py" → check_path (.file f) = []) := by
  refine ⟨fun dp files => rfl, by decide, by decide, by decide, ?_, ?_⟩
  · intro f h
    simp [check_path, h]
  · intro f h
    simp [check_path, h]

/-- Witness for C10: file mode analyzes the test-named `.py` file and
ignores a non-`.py` file. -/
theorem test_name_exclusion_dir_mode_only_witness :
    check_path (.file attFile) = check_file attFile ∧
    check_path (.file ⟨"notes.txt", .ok []⟩) = [] :=
  ⟨test_name_exclusion_dir_mode_only.2.2.2.2.1 attFile (by decide),
   test_name_exclusion_dir_mode_only.2.2.2.2.2 ⟨"notes.txt", .ok []⟩ (by decide)⟩

end FailFast
